import Mathlib

/-!
Verification development for the PuppetMaster crawl4ai service layer
(`src/crawl4ai/service/crawler.py`, `src/crawl4ai/workers/crawler_worker.py`,
`src/crawl4ai/routes/crawler_routes.py`).

Strings are modelled as `List Char`.  Python string primitives used by the
service (`str.replace`, `str.split`, the `in` substring test, `startswith`,
`endswith`, slicing `l[:m]`) are embedded as executable functions below,
with Python's semantics (replace/split act on all non-overlapping
occurrences, left to right; slicing with a negative bound counts from the
end).  External collaborators (the Playwright page driver, the crawl4ai
`AsyncWebCrawler.arun`, `json.loads`) are passed in as oracle parameters:
each operation is a function of the outcomes those collaborators produce.
-/

/-- Python `s.startswith(pat)` on character lists: first argument is the
pattern, second the string. -/
def startsWithL : List Char → List Char → Bool
  | [], _ => true
  | _ :: _, [] => false
  | p :: ps, c :: cs => p == c && startsWithL ps cs

/-- Python `s.endswith(pat)` on character lists. -/
def endsWithL (pat l : List Char) : Bool :=
  startsWithL pat.reverse l.reverse

/-- Python's substring test `pat in s` (for a non-empty pattern):
some suffix of `l` starts with `pat`. -/
def containsSub : List Char → List Char → Bool
  | [], pat => startsWithL pat []
  | c :: rest, pat => startsWithL pat (c :: rest) || containsSub rest pat

/-- Scanner for Python `s.replace(pat, rep)`, structurally recursive on a
fuel argument so that it evaluates by kernel reduction; each step consumes
at least one character, so fuel `l.length` is always enough. -/
def replaceGo (pat rep : List Char) : Nat → List Char → List Char
  | 0, l => l
  | _ + 1, [] => []
  | fuel + 1, c :: rest =>
    if pat ≠ [] ∧ startsWithL pat (c :: rest) = true then
      rep ++ replaceGo pat rep fuel ((c :: rest).drop pat.length)
    else
      c :: replaceGo pat rep fuel rest

/-- Python `s.replace(pat, rep)` for a non-empty pattern: replace every
non-overlapping occurrence of `pat`, scanning left to right. -/
def replaceAll (pat rep l : List Char) : List Char :=
  replaceGo pat rep l.length l

/-- Scanner for Python `s.split(sep)`, fuelled like `replaceGo`. -/
def pySplitGo (sep : List Char) : Nat → List Char → List (List Char)
  | 0, l => [l]
  | _ + 1, [] => [[]]
  | fuel + 1, c :: rest =>
    if sep ≠ [] ∧ startsWithL sep (c :: rest) = true then
      [] :: pySplitGo sep fuel ((c :: rest).drop sep.length)
    else
      match pySplitGo sep fuel rest with
      | [] => [[c]]
      | seg :: segs => (c :: seg) :: segs

/-- Python `s.split(sep)` for a non-empty separator: split at every
non-overlapping occurrence, left to right. -/
def pySplit (sep l : List Char) : List (List Char) :=
  pySplitGo sep l.length l

/-- Python `l[:m]` for an `int` bound `m`: a non-negative bound takes the
first `m` elements; a negative bound drops the last `|m|` elements
(`l[:m] = l[:max(0, len(l)+m)]`). -/
def pySliceTo (l : List α) (m : Int) : List α :=
  if 0 ≤ m then l.take m.toNat
  else l.take (l.length - min l.length m.natAbs)

/-- The literal `"/"`. -/
def slashPat : List Char := "/".toList

/-- The literal `"http"`. -/
def httpPat : List Char := "http".toList

/-- The literal `"://"`. -/
def schemeSep : List Char := "://".toList

/-- The `scheme://authority` part of the start URL as computed by
`crawl_links` (crawler.py line 560):
`base_url.split("://")[0] + "://" + base_url.split("://")[1].split("/")[0]`. -/
def schemeAuthority (url : List Char) : List Char :=
  (pySplit schemeSep url).headD [] ++ schemeSep
    ++ (pySplit slashPat ((pySplit schemeSep url).getD 1 [])).headD []

/-- The Link Resolver: the per-href normalization of
`CrawlerService.crawl_links` (crawler.py lines 556-569).  Root-relative
hrefs are joined to the scheme+authority of the start URL (or to the whole
start URL when it has no `"://"`); hrefs not starting with `"http"` are
concatenated to the start URL, inserting `"/"` unless the start URL already
ends in `"/"`; all other hrefs pass through unchanged. -/
def resolveHref (url href : List Char) : List Char :=
  if startsWithL slashPat href then
    if containsSub url schemeSep then
      schemeAuthority url ++ href
    else
      url ++ href
  else if !startsWithL httpPat href then
    if endsWithL slashPat url then
      url ++ href
    else
      url ++ slashPat ++ href
  else
    href

/-- The parsed form of a `filter` condition (crawler.py lines 366-379): a
substring predicate on the `href` attribute or on the text content. -/
inductive FilterCondition where
  | hrefCond (v : List Char)
  | textCond (v : List Char)
  deriving DecidableEq, Repr

/-- The literal `"href.includes("`. -/
def hrefIncludesPat : List Char := "href.includes(".toList

/-- The literal `"text.includes("`. -/
def textIncludesPat : List Char := "text.includes(".toList

/-- Literal extraction of the Condition Parser (crawler.py lines 372, 375):
`condition.replace(wrapper, '').replace(')', '').replace('"', '').replace("'", '')`. -/
def stripLiteral (wrapper cond : List Char) : List Char :=
  replaceAll ['\''] []
    (replaceAll ['"'] []
      (replaceAll [')'] []
        (replaceAll wrapper [] cond)))

/-- The Condition Parser of `CrawlerService.filter` (crawler.py lines
366-379): a condition containing `href.includes(` parses to an href
predicate, else one containing `text.includes(` parses to a text predicate,
else the whole condition string becomes a text predicate. -/
def parseCondition (condition : List Char) : FilterCondition :=
  if containsSub condition hrefIncludesPat then
    .hrefCond (stripLiteral hrefIncludesPat condition)
  else if containsSub condition textIncludesPat then
    .textCond (stripLiteral textIncludesPat condition)
  else
    .textCond condition

/-- The fields of a crawl4ai `AsyncWebCrawler.arun` result that the service
reads: `result.success`, `result.url`, `result.extracted_content`,
`result.error_message`. -/
structure ArunResult where
  success : Bool
  url : List Char
  extractedContent : Option (List Char)
  errorMessage : Option (List Char)
  deriving DecidableEq, Repr

/-- A response dictionary of the service.  Optional keys are `Option`
fields: `none` means the key is absent.  Keys that can hold JSON null have
value type `Option (List Char)` inside (`some none` = key present holding
null, `some (some s)` = key present holding the string `s`). -/
structure Envelope where
  success : Bool
  error : Option (Option (List Char)) := none
  errorMessage : Option (Option (List Char)) := none
  urlField : Option (List Char) := none
  extractedContent : Option (Option (List Char)) := none
  schemaPresent : Bool := false
  textResult : Option (List Char) := none
  deriving DecidableEq, Repr

/-- The try/except body of `CrawlerService.crawl` (crawler.py lines
76-131), as a function of the `arun` outcome (`.error e` = an exception
with message `e` was raised beneath the call).  The success path passes the
upstream result through under the keys `success`, `url`,
`extracted_content`, `error_message` — it never writes an `error` key; the
except path returns `{"error": str(e), "success": False}`. -/
def crawlRun (arun : Except (List Char) ArunResult) : Envelope :=
  match arun with
  | .ok r =>
      { success := r.success
        urlField := some r.url
        extractedContent := some r.extractedContent
        errorMessage := some r.errorMessage }
  | .error e => { success := false, error := some (some e) }

/-- `CrawlerService.crawl` (crawler.py lines 62-131): `await
self.initialize()` runs before the `try`, so an initialization failure
(`init = .error e`) is raised outside the handler and propagates to the
caller; everything else is the guarded body `crawlRun`. -/
def crawlMethod (init : Except (List Char) Unit)
    (arun : Except (List Char) ArunResult) : Except (List Char) Envelope :=
  match init with
  | .error e => .error e
  | .ok _ => .ok (crawlRun arun)

/-- The message of the `json.JSONDecodeError` fallback of
`generate_schema` (crawler.py line 233). -/
def unableParseMsg : List Char := "Unable to parse result as JSON schema".toList

/-- The message of the `TypeError` CPython raises from
`json.loads(None)` when `extracted_content` is null; it is caught by the
outer `except Exception` of `generate_schema`. -/
def jsonLoadsNoneMsg : List Char :=
  "the JSON object must be str, bytes or bytearray, not NoneType".toList

/-- The try/except body of `CrawlerService.generate_schema` (crawler.py
lines 198-238).  `jsonParses` is the oracle for `json.loads` succeeding on
the extracted content.  Note the `JSONDecodeError` fallback: it returns
`success: True` together with a non-empty `error` string. -/
def generateSchemaRun (arun : Except (List Char) ArunResult)
    (jsonParses : List Char → Bool) : Envelope :=
  match arun with
  | .error e => { success := false, error := some (some e) }
  | .ok r =>
    if !r.success then
      { success := false, error := some r.errorMessage }
    else
      match r.extractedContent with
      | none => { success := false, error := some (some jsonLoadsNoneMsg) }
      | some content =>
        if jsonParses content then
          { success := true, schemaPresent := true }
        else
          { success := true, textResult := some content,
            error := some (some unableParseMsg) }

/-- `CrawlerService.generate_schema` (crawler.py lines 184-238), with
`await self.initialize()` before the `try` as in the source. -/
def generateSchemaMethod (init : Except (List Char) Unit)
    (arun : Except (List Char) ArunResult) (jsonParses : List Char → Bool) :
    Except (List Char) Envelope :=
  match init with
  | .error e => .error e
  | .ok _ => .ok (generateSchemaRun arun jsonParses)

/-- Whether an envelope carries an `error` key holding a non-empty
string. -/
def errorPresentNonEmpty (env : Envelope) : Bool :=
  match env.error with
  | some (some s) => decide (s ≠ [])
  | _ => false

/-- The OperationResult invariant claimed by the spec: `success=false` iff
`error` is present and non-empty, and `success=true` implies the `error`
key is absent. -/
def resultInvariant (env : Envelope) : Prop :=
  (env.success = false ↔ errorPresentNonEmpty env = true)
  ∧ (env.success = true → env.error = none)

/-- The envelope `generate_schema` produces when `arun` succeeds but the
extracted content does not parse as JSON (crawler.py lines 228-234). -/
def genSchemaFallbackSample : Envelope :=
  generateSchemaRun
    (.ok ⟨true, "https://example.com".toList, some "not json".toList, none⟩)
    (fun _ => false)

/-- A collapsed, one-outcome-per-link view of the per-link `try` of
`crawl_links` (crawler.py lines 593-603): either `arun` returned a result,
or an exception was raised — distinguished by whether the per-link
crawler's browser session had already been opened when it was raised.
This view is the one the truncation and session-accounting statements
need; it does not model a `crawler.close()` failure occurring after
`results.append(...)`, which appends a second entry for the same link —
`LinkCrawl` below refines it with that path. -/
inductive LinkOutcome where
  | completed (success : Bool) (data : Option (List Char)) (errMsg : Option (List Char))
  | raisedAfterOpen (msg : List Char)
  | raisedBeforeOpen (msg : List Char)
  deriving DecidableEq, Repr

/-- One entry of the `crawl_links` result list.  `none` = key absent;
`some none` = key present holding null. -/
structure LinkEntry where
  url : List Char
  success : Bool
  data : Option (Option (List Char)) := none
  error : Option (Option (List Char)) := none
  deriving DecidableEq, Repr

/-- The entry appended for one link in the collapsed view (crawler.py
lines 597-609): the completed path records the upstream success, data and
error_message; the except path records `{url, success: False,
error: str(e)}`.  The close()-failure path, on which the source appends a
completed entry and then an error entry for the same link, is modelled by
`linkEntriesOf` below. -/
def linkEntry (link : List Char) : LinkOutcome → LinkEntry
  | .completed s d em => { url := link, success := s, data := some d, error := some em }
  | .raisedAfterOpen m => { url := link, success := false, error := some (some m) }
  | .raisedBeforeOpen m => { url := link, success := false, error := some (some m) }

/-- The per-link loop of `crawl_links` (crawler.py lines 590-611): each
retained link is crawled independently, in order; `crawlOf` is the oracle
giving each link's outcome. -/
def crawlLinksLoop (crawlOf : List Char → LinkOutcome) (links : List (List Char)) :
    List LinkEntry :=
  links.map (fun link => linkEntry link (crawlOf link))

/-- Links retained from the start page (crawler.py lines 552-571): the
`href` attribute of each matched element (null when absent), kept when
truthy (non-null, non-empty), resolved against the start URL, in document
order. -/
def resolveLinks (url : List Char) (hrefs : List (Option (List Char))) :
    List (List Char) :=
  hrefs.filterMap (fun h => match h with
    | none => none
    | some s => if s = [] then none else some (resolveHref url s))

/-- The normal path of `CrawlerService.crawl_links` (crawler.py lines
511-611): collect and resolve the links, truncate with `links[:max_depth]`
(no validation of `max_depth` is performed), then crawl each retained
link. -/
def crawlLinksResults (url : List Char) (hrefs : List (Option (List Char)))
    (maxDepth : Int) (crawlOf : List Char → LinkOutcome) : List LinkEntry :=
  crawlLinksLoop crawlOf (pySliceTo (resolveLinks url hrefs) maxDepth)

/-- The full outcome of one iteration of the per-link `try` of
`crawl_links` (crawler.py lines 593-603):

* `returned s d em closeErr` — `AsyncWebCrawler(...)` and
  `await crawler.arun(...)` succeeded, so `results.append({...})` ran with
  the upstream success `s`, extracted content `d` and error_message `em`;
  afterwards `await crawler.close()` either returned (`closeErr = none`)
  or raised with message `m` (`closeErr = some m`) — that raise happens
  inside the same `try`, after the append;
* `arunRaised m` — the crawler construction or `arun` raised `m` before
  anything was appended. -/
inductive LinkCrawl where
  | returned (success : Bool) (data : Option (List Char))
      (errMsg : Option (List Char)) (closeErr : Option (List Char))
  | arunRaised (msg : List Char)
  deriving DecidableEq, Repr

/-- The entries one link contributes to the `crawl_links` result list
(crawler.py lines 593-609): one completed entry when its close() returns;
the completed entry followed by a `{url, success: False, error: str(e)}`
entry when close() raises after the append; a single error entry when
the crawl raised before the append. -/
def linkEntriesOf (link : List Char) : LinkCrawl → List LinkEntry
  | .returned s d em none =>
      [{ url := link, success := s, data := some d, error := some em }]
  | .returned s d em (some m) =>
      [{ url := link, success := s, data := some d, error := some em },
       { url := link, success := false, error := some (some m) }]
  | .arunRaised m =>
      [{ url := link, success := false, error := some (some m) }]

/-- The per-link loop of `crawl_links` (crawler.py lines 590-611) in the
full model: the concatenation, per retained link in order, of that link's
appended entries. -/
def crawlLinksLoopFull (crawlOf : List Char → LinkCrawl)
    (links : List (List Char)) : List LinkEntry :=
  links.flatMap (fun link => linkEntriesOf link (crawlOf link))

/-- Oracle for the close-failure counterexample: the first link's `arun`
returns but its `crawler.close()` raises, the second link completes
normally. -/
def closeFailOracle : List Char → LinkCrawl := fun l =>
  if l = "https://a.example/1".toList then
    .returned true (some "data1".toList) none (some "close failed".toList)
  else
    .returned true (some "data2".toList) none none

/-- First sample link for the partial-failure scenario. -/
def isoLink1 : List Char := "https://a.example/1".toList

/-- Second sample link for the partial-failure scenario. -/
def isoLink2 : List Char := "https://a.example/2".toList

/-- Sample full-model oracle: the first link's crawl raises `"boom"`
before its entry is appended, every other link completes and closes
normally. -/
def isoOracle : List Char → LinkCrawl := fun l =>
  if l = isoLink1 then .arunRaised "boom".toList
  else .returned true (some "data".toList) none none

/-- Start URL of the five-link truncation scenario. -/
def c5StartUrl : List Char := "https://example.com".toList

/-- Five discovered hrefs for the truncation scenario. -/
def c5Hrefs : List (Option (List Char)) :=
  [some "/a".toList, some "/b".toList, some "/c".toList,
   some "/d".toList, some "/e".toList]

/-- Outcome oracle for the truncation scenarios: every link completes. -/
def c5Oracle : List Char → LinkOutcome :=
  fun _ => .completed true (some "data".toList) none

/-- A DOM element as observed through the Playwright locator API used by
`extract`/`verify`/`filter`: text content (null for some nodes), inner
HTML, and attributes. -/
structure Element where
  text : Option (List Char)
  html : List Char
  attrs : List (List Char × List Char)
  deriving DecidableEq, Repr

/-- `element.get_attribute(name)`: the attribute's value, or null when the
element does not carry the attribute. -/
def getAttribute (el : Element) (name : List Char) : Option (List Char) :=
  (el.attrs.find? (fun kv => kv.1 == name)).map (fun kv => kv.2)

/-- The literal `"text"`. -/
def textType : List Char := "text".toList

/-- The literal `"html"`. -/
def htmlType : List Char := "html".toList

/-- The literal `"attribute"`. -/
def attributeType : List Char := "attribute".toList

/-- The per-element step of the `extract` loop (crawler.py lines 163-173):
one entry with the element's text for type `"text"`, its inner HTML for
`"html"`, or the named attribute's value (null when missing) for
`"attribute"` with a truthy attribute name; no entry otherwise. -/
def extractOne (ty : List Char) (attr : Option (List Char)) (el : Element) :
    List (Option (List Char)) :=
  if ty = textType then [el.text]
  else if ty = htmlType then [some el.html]
  else
    match attr with
    | some a => if ty = attributeType ∧ a ≠ [] then [getAttribute el a] else []
    | none => []

/-- The `extract` result list (crawler.py lines 160-173): the per-element
entries over the matched elements, in document order. -/
def extractLoop (ty : List Char) (attr : Option (List Char))
    (els : List Element) : List (Option (List Char)) :=
  els.flatMap (extractOne ty attr)

/-- The value `CrawlerService.extract` returns (crawler.py lines 133-182):
the bare list of extracted entries on success, or the
`{"error": str(e), "success": False}` dictionary from the except path. -/
inductive ExtractResult where
  | items (xs : List (Option (List Char)))
  | errEnvelope (msg : List Char)
  deriving DecidableEq, Repr

/-- `CrawlerService.extract`: `await self.initialize()` before the `try`
(a failure there propagates), then the Playwright-scoped body; `pageEls`
is the oracle for navigation plus `locator(selector).all()`. -/
def extractMethod (init : Except (List Char) Unit)
    (pageEls : Except (List Char) (List Element))
    (ty : List Char) (attr : Option (List Char)) :
    Except (List Char) ExtractResult :=
  match init with
  | .error e => .error e
  | .ok _ =>
    match pageEls with
    | .error e => .ok (.errEnvelope e)
    | .ok els => .ok (.items (extractLoop ty attr els))

/-- A run of a Playwright-scoped operation body (extract, verify, wait,
filter, screenshot, and the link-collection phase of crawl_links), paired
with the number of page sessions left open when the method returns.  The
browser is launched inside `async with async_playwright() as p:`; on the
normal path the code calls `await browser.close()` before leaving the
scope, and when the body raises, exiting the `async with` scope stops the
Playwright driver, which closes the browser launched from it — so no
session remains open on either path. -/
def scopedRun (work : Except (List Char) α) : Except (List Char) α × Nat :=
  match work with
  | .ok a => (.ok a, 0)
  | .error e => (.error e, 0)

/-- Page sessions left open by one iteration of the per-link loop of
`crawl_links` (crawler.py lines 592-609).  The per-link `AsyncWebCrawler`
is not managed by any context manager and `await crawler.close()` runs
only after `results.append(...)` on the non-raising path, so a link whose
`arun` raises after its browser session opened leaves that session
open. -/
def linkOpenAfter : LinkOutcome → Nat
  | .completed _ _ _ => 0
  | .raisedAfterOpen _ => 1
  | .raisedBeforeOpen _ => 0

/-- Total page sessions left open when the per-link loop of `crawl_links`
returns. -/
def crawlLinksOpenAfter (crawlOf : List Char → LinkOutcome)
    (links : List (List Char)) : Nat :=
  (links.map (fun l => linkOpenAfter (crawlOf l))).sum

/-- The service-level browser state: whether `self.crawler` is set. -/
structure ServiceState where
  crawler : Bool
  deriving DecidableEq, Repr

/-- `CrawlerService.close` (crawler.py lines 55-60): closes the browser
when one is open and resets `self.crawler` to None — the state is
uninitialized afterwards in every case. -/
def closeService (_ : ServiceState) : ServiceState :=
  { crawler := false }

/-- What the worker returns for a job: the bare `{"error": msg}`
dictionary, or the dispatched handler's result. -/
inductive WorkerResult where
  | errorDict (msg : List Char)
  | handlerResult (env : Envelope)
  deriving DecidableEq, Repr

/-- The action types `process_job` dispatches on (crawler_worker.py lines
34-47). -/
def knownActions : List (List Char) :=
  ["crawl".toList, "extract".toList, "generateSchema".toList, "verify".toList,
   "crawlLinks".toList, "wait".toList, "filter".toList]

/-- `CrawlerWorker.process_job` (crawler_worker.py lines 18-56).
`jobType` is `job_data.get("type")` (`none` = key absent); `handler` is
the oracle for the dispatched `_handle_*` call, transforming the service
state and either returning an envelope or raising.  A falsy action type
(absent or the empty string) returns `{"error": "No action type
specified"}` before the `try`, so the `finally` that closes the service
does not run on that path; every other outcome — known action, unknown
action, or caught exception — passes through the `finally`, which invokes
`close()` before the result is returned. -/
def processJob (jobType : Option (List Char))
    (handler : List Char → ServiceState → Except (List Char) Envelope × ServiceState)
    (st : ServiceState) : WorkerResult × ServiceState :=
  match jobType with
  | none => (.errorDict "No action type specified".toList, st)
  | some t =>
    if t = [] then
      (.errorDict "No action type specified".toList, st)
    else
      let step : WorkerResult × ServiceState :=
        if t ∈ knownActions then
          match handler t st with
          | (.ok env, st') => (.handlerResult env, st')
          | (.error e, st') => (.errorDict e, st')
        else
          (.errorDict ("Unknown action type: ".toList ++ t), st)
      (step.1, closeService step.2)

/-- A string starting with `"http"` does not start with `"/"`. -/
theorem not_slash_of_http {href : List Char}
    (hh : startsWithL httpPat href = true) : startsWithL slashPat href = false := by
  cases href with
  | nil => simp [startsWithL, httpPat, String.toList] at hh
  | cons c cs =>
    simp only [httpPat, String.toList, String.data, startsWithL,
      Bool.and_eq_true, beq_iff_eq] at hh
    simp [slashPat, String.toList, startsWithL, ← hh.1]

/-- C4: the Link Resolver passes `http…` hrefs through unchanged, joins
root-relative hrefs to the scheme+authority of the start URL, and joins all
other hrefs by concatenation, inserting `/` iff the start URL does not
already end in `/`. -/
theorem linkResolver_cases (url href : List Char) :
    (startsWithL httpPat href = true → resolveHref url href = href)
    ∧ (startsWithL slashPat href = true → containsSub url schemeSep = true →
        resolveHref url href = schemeAuthority url ++ href)
    ∧ (startsWithL httpPat href = false → startsWithL slashPat href = false →
        resolveHref url href =
          if endsWithL slashPat url then url ++ href else url ++ slashPat ++ href) := by
  refine ⟨?_, ?_, ?_⟩
  · intro hh
    have hslash := not_slash_of_http hh
    simp [resolveHref, hslash, hh]
  · intro hs hc
    simp [resolveHref, hs, hc]
  · intro hh hs
    simp [resolveHref, hs, hh]

/-- Witness for `linkResolver_cases`: the spec's own example.  With start
URL `https://example.com/page`, href `/x` resolves to
`https://example.com/x`, href `http://other.com/y` passes through
unchanged, and href `z` resolves to `https://example.com/page/z`. -/
theorem linkResolver_cases_witness :
    resolveHref "https://example.com/page".toList "/x".toList
        = "https://example.com/x".toList
    ∧ resolveHref "https://example.com/page".toList "http://other.com/y".toList
        = "http://other.com/y".toList
    ∧ resolveHref "https://example.com/page".toList "z".toList
        = "https://example.com/page/z".toList := by
  refine ⟨?_, ?_, ?_⟩
  · have h := (linkResolver_cases "https://example.com/page".toList "/x".toList).2.1
      (by decide) (by decide)
    rw [h]; decide
  · exact (linkResolver_cases "https://example.com/page".toList
      "http://other.com/y".toList).1 (by decide)
  · have h := (linkResolver_cases "https://example.com/page".toList "z".toList).2.2
      (by decide) (by decide)
    rw [h]; decide

/-- `replaceGo` does not depend on the fuel once the fuel covers the length
of the string being scanned. -/
theorem replaceGo_fuel (pat rep : List Char) :
    ∀ f₁ f₂ l, l.length ≤ f₁ → l.length ≤ f₂ →
      replaceGo pat rep f₁ l = replaceGo pat rep f₂ l := by
  intro f₁
  induction f₁ with
  | zero =>
    intro f₂ l h₁ _
    have : l = [] := List.length_eq_zero.mp (Nat.le_zero.mp h₁)
    subst this
    cases f₂ <;> simp [replaceGo]
  | succ f ih =>
    intro f₂ l h₁ h₂
    cases l with
    | nil => cases f₂ <;> simp [replaceGo]
    | cons c rest =>
      cases f₂ with
      | zero => simp at h₂
      | succ g =>
        simp only [replaceGo]
        by_cases hcond : pat ≠ [] ∧ startsWithL pat (c :: rest) = true
        · rw [if_pos hcond, if_pos hcond]
          have hp : 0 < pat.length := by
            cases pat with
            | nil => exact absurd rfl hcond.1
            | cons p ps => simp
          have hlen : ((c :: rest).drop pat.length).length ≤ f := by
            simp only [List.length_drop, List.length_cons]
            simp only [List.length_cons] at h₁
            omega
          have hlen' : ((c :: rest).drop pat.length).length ≤ g := by
            simp only [List.length_drop, List.length_cons]
            simp only [List.length_cons] at h₂
            omega
          rw [ih g _ hlen hlen']
        · rw [if_neg hcond, if_neg hcond]
          have hlen : rest.length ≤ f := by
            simp only [List.length_cons] at h₁; omega
          have hlen' : rest.length ≤ g := by
            simp only [List.length_cons] at h₂; omega
          rw [ih g rest hlen hlen']

/-- Every list starts with itself, whatever follows. -/
theorem startsWithL_append_self : ∀ l r : List Char, startsWithL l (l ++ r) = true := by
  intro l
  induction l with
  | nil => intro r; simp [startsWithL]
  | cons c cs ih => intro r; simp [startsWithL, ih r]

/-- A string that starts with `pat` contains `pat` as a substring. -/
theorem containsSub_of_startsWith {l pat : List Char}
    (h : startsWithL pat l = true) : containsSub l pat = true := by
  cases l with
  | nil => simpa [containsSub] using h
  | cons c rest => simp [containsSub, h]

/-- `str.replace` leaves a string without any occurrence of the pattern
unchanged (fuelled form). -/
theorem replaceGo_of_not_contains (pat rep : List Char) :
    ∀ fuel l, l.length ≤ fuel → containsSub l pat = false →
      replaceGo pat rep fuel l = l := by
  intro fuel
  induction fuel with
  | zero => intro l _ _; simp [replaceGo]
  | succ f ih =>
    intro l hlen hc
    cases l with
    | nil => simp [replaceGo]
    | cons c rest =>
      simp only [containsSub, Bool.or_eq_false_iff] at hc
      simp only [replaceGo]
      rw [if_neg (by simp [hc.1])]
      have : rest.length ≤ f := by simp only [List.length_cons] at hlen; omega
      rw [ih rest this hc.2]

/-- `str.replace` leaves a string without any occurrence of the pattern
unchanged. -/
theorem replaceAll_of_not_contains {pat rep l : List Char}
    (hc : containsSub l pat = false) : replaceAll pat rep l = l :=
  replaceGo_of_not_contains pat rep l.length l (Nat.le_refl _) hc

/-- `str.replace` on a string that starts with the (non-empty) pattern
replaces that leading occurrence and continues after it. -/
theorem replaceAll_append_self {pat : List Char} (rep rest : List Char)
    (hw : pat ≠ []) :
    replaceAll pat rep (pat ++ rest) = rep ++ replaceAll pat rep rest := by
  cases pat with
  | nil => exact absurd rfl hw
  | cons p ps =>
    show replaceGo (p :: ps) rep ((p :: ps ++ rest).length) (p :: (ps ++ rest))
      = rep ++ replaceAll (p :: ps) rep rest
    have hfuel : (p :: ps ++ rest).length = (ps.length + rest.length) + 1 := by
      simp
    rw [hfuel]
    simp only [replaceGo]
    rw [if_pos ⟨by simp, by simpa using startsWithL_append_self (p :: ps) rest⟩]
    have hdrop : (p :: (ps ++ rest)).drop (p :: ps).length = rest := by
      simp
    rw [hdrop]
    rw [replaceGo_fuel (p :: ps) rep (ps.length + rest.length) rest.length rest
      (by omega) (Nat.le_refl _)]
    rfl

/-- `str.replace` of a single character by the empty string is `filter`
(fuelled form). -/
theorem replaceGo_single (q : Char) :
    ∀ fuel l, l.length ≤ fuel →
      replaceGo [q] [] fuel l = l.filter (· ≠ q) := by
  intro fuel
  induction fuel with
  | zero =>
    intro l hlen
    have : l = [] := List.length_eq_zero.mp (Nat.le_zero.mp hlen)
    subst this
    simp [replaceGo]
  | succ f ih =>
    intro l hlen
    cases l with
    | nil => simp [replaceGo]
    | cons c rest =>
      have hrest : rest.length ≤ f := by simp only [List.length_cons] at hlen; omega
      simp only [replaceGo]
      by_cases hqc : q = c
      · rw [if_pos ⟨by simp, by simp [startsWithL, hqc]⟩]
        simp only [List.length_cons, List.length_nil]
        rw [List.drop_one, List.tail_cons, ih rest hrest]
        simp [List.filter_cons, hqc]
      · rw [if_neg (by simp [startsWithL, hqc])]
        rw [ih rest hrest]
        simp [List.filter_cons, Ne.symm hqc]

/-- `str.replace` of a single character by the empty string is `filter`. -/
theorem replaceAll_single (q : Char) (l : List Char) :
    replaceAll [q] [] l = l.filter (· ≠ q) :=
  replaceGo_single q l.length l (Nat.le_refl _)

/-- Stripping a well-formed `wrapper(<quote>lit<quote>)` input recovers the
literal, provided the literal contains no parenthesis or quote characters
and the part after the wrapper contains no further occurrence of the
wrapper. -/
theorem stripLiteral_wrapped (wrapper lit : List Char) (q : Char)
    (hw : wrapper ≠ [])
    (hq : q = '"' ∨ q = '\'')
    (hlit : ∀ c ∈ lit, c ≠ ')' ∧ c ≠ '"' ∧ c ≠ '\'')
    (hnc : containsSub (q :: lit ++ [q, ')']) wrapper = false) :
    stripLiteral wrapper (wrapper ++ (q :: lit ++ [q, ')'])) = lit := by
  have step1 : replaceAll wrapper [] (wrapper ++ (q :: lit ++ [q, ')']))
      = q :: lit ++ [q, ')'] := by
    rw [replaceAll_append_self [] _ hw, replaceAll_of_not_contains hnc]
    simp
  have hfs : lit.filter (· ≠ '\'') = lit := by
    rw [List.filter_eq_self]
    intro a ha
    simp [(hlit a ha).2.2]
  unfold stripLiteral
  rw [step1, replaceAll_single, replaceAll_single, replaceAll_single]
  rcases hq with hq | hq <;> subst hq
  · rw [show ('"' :: lit ++ ['"', ')']).filter (· ≠ ')') = '"' :: lit ++ ['"'] by
      simp [List.filter_cons, List.filter_append]
      exact fun a ha => (hlit a ha).1]
    rw [show ('"' :: lit ++ ['"']).filter (· ≠ '"') = lit by
      simp [List.filter_cons, List.filter_append]
      exact fun a ha => (hlit a ha).2.1]
    exact hfs
  · rw [show ('\'' :: lit ++ ['\'', ')']).filter (· ≠ ')') = '\'' :: lit ++ ['\''] by
      simp [List.filter_cons, List.filter_append]
      exact fun a ha => (hlit a ha).1]
    rw [show ('\'' :: lit ++ ['\'']).filter (· ≠ '"') = '\'' :: lit ++ ['\''] by
      simp [List.filter_cons, List.filter_append]
      exact fun a ha => (hlit a ha).2.1]
    rw [show ('\'' :: lit ++ ['\'']).filter (· ≠ '\'') = lit by
      simp [List.filter_cons, List.filter_append]
      exact fun a ha => (hlit a ha).2.2]

/-- C7: the Condition Parser is total — every input yields an href or a
text predicate, never an error; a well-formed `href.includes(<quoted lit>)`
input yields the href predicate on the literal, a well-formed
`text.includes(<quoted lit>)` input (not containing the href form) yields
the text predicate on the literal, and an input containing neither form
yields the text predicate on the entire input string. -/
theorem conditionParser_spec (lit s : List Char) (q : Char)
    (hq : q = '"' ∨ q = '\'')
    (hlit : ∀ c ∈ lit, c ≠ ')' ∧ c ≠ '"' ∧ c ≠ '\'') :
    ((∃ v, parseCondition s = .hrefCond v) ∨ (∃ v, parseCondition s = .textCond v))
    ∧ (containsSub (q :: lit ++ [q, ')']) hrefIncludesPat = false →
        parseCondition (hrefIncludesPat ++ (q :: lit ++ [q, ')'])) = .hrefCond lit)
    ∧ (containsSub (q :: lit ++ [q, ')']) textIncludesPat = false →
       containsSub (textIncludesPat ++ (q :: lit ++ [q, ')'])) hrefIncludesPat = false →
        parseCondition (textIncludesPat ++ (q :: lit ++ [q, ')'])) = .textCond lit)
    ∧ (containsSub s hrefIncludesPat = false → containsSub s textIncludesPat = false →
        parseCondition s = .textCond s) := by
  refine ⟨?_, ?_, ?_, ?_⟩
  · by_cases h1 : containsSub s hrefIncludesPat
    · exact Or.inl ⟨stripLiteral hrefIncludesPat s, by simp [parseCondition, h1]⟩
    · by_cases h2 : containsSub s textIncludesPat
      · exact Or.inr ⟨stripLiteral textIncludesPat s, by simp [parseCondition, h1, h2]⟩
      · exact Or.inr ⟨s, by simp [parseCondition, h1, h2]⟩
  · intro hnc
    have hin : containsSub (hrefIncludesPat ++ (q :: lit ++ [q, ')'])) hrefIncludesPat
        = true :=
      containsSub_of_startsWith (startsWithL_append_self _ _)
    simp only [parseCondition, hin, if_pos]
    rw [stripLiteral_wrapped hrefIncludesPat lit q (by decide) hq hlit hnc]
  · intro hnc hnh
    have hin : containsSub (textIncludesPat ++ (q :: lit ++ [q, ')'])) textIncludesPat
        = true :=
      containsSub_of_startsWith (startsWithL_append_self _ _)
    simp only [parseCondition, hin, hnh, Bool.false_eq_true, if_false, if_pos]
    rw [stripLiteral_wrapped textIncludesPat lit q (by decide) hq hlit hnc]
  · intro h1 h2
    simp [parseCondition, h1, h2]

/-- Witness for `conditionParser_spec`: the literal extraction on the
spec's example conditions and the fallback on an unrecognized form. -/
theorem conditionParser_spec_witness :
    parseCondition "href.includes(\"/blog/\")".toList = .hrefCond "/blog/".toList
    ∧ parseCondition "text.includes('news')".toList = .textCond "news".toList
    ∧ parseCondition "not a recognized form".toList
        = .textCond "not a recognized form".toList := by
  refine ⟨?_, ?_, ?_⟩
  · have h := (conditionParser_spec "/blog/".toList [] '"' (Or.inl rfl)
      (by decide)).2.1 (by decide)
    have e : "href.includes(\"/blog/\")".toList
        = hrefIncludesPat ++ ('"' :: "/blog/".toList ++ ['"', ')']) := by decide
    rw [e]; exact h
  · have h := (conditionParser_spec "news".toList [] '\'' (Or.inr rfl)
      (by decide)).2.2.1 (by decide) (by decide)
    have e : "text.includes('news')".toList
        = textIncludesPat ++ ('\'' :: "news".toList ++ ['\'', ')']) := by decide
    rw [e]; exact h
  · exact (conditionParser_spec [] "not a recognized form".toList '"' (Or.inl rfl)
      (by decide)).2.2.2 (by decide) (by decide)

/-- C1 counterexample: the JSON-decode fallback of `generate_schema`
returns `success=true` together with a present, non-empty `error` string,
so the claimed envelope invariant fails on this concrete envelope. -/
theorem envelope_invariant_counterexample :
    genSchemaFallbackSample.success = true
    ∧ genSchemaFallbackSample.error = some (some unableParseMsg)
    ∧ unableParseMsg ≠ []
    ∧ ¬ resultInvariant genSchemaFallbackSample := by
  refine ⟨by decide, by decide, by decide, ?_⟩
  intro h
  have h1 := h.2 (by decide)
  rw [show genSchemaFallbackSample.error = some (some unableParseMsg) by decide] at h1
  exact Option.noConfusion h1

/-- C1 amended: the except paths of `crawl` and `generate_schema` and the
parse-success path of `generate_schema` satisfy the invariant (given a
non-empty exception message), but the JSON-decode fallback of
`generate_schema` returns `success=true` with a present non-empty `error`,
and the pass-through envelope of `crawl` never carries an `error` key, so
an upstream failure surfaces as `success=false` with `error` absent. -/
theorem envelope_invariant_amended (e : List Char) (r : ArunResult)
    (p : List Char → Bool) (c : List Char) :
    (e ≠ [] → resultInvariant (generateSchemaRun (.error e) p))
    ∧ (e ≠ [] → resultInvariant (crawlRun (.error e)))
    ∧ (r.success = true → r.extractedContent = some c → p c = true →
        resultInvariant (generateSchemaRun (.ok r) p))
    ∧ (r.success = true → r.extractedContent = some c → p c = false →
        (generateSchemaRun (.ok r) p).success = true
        ∧ (generateSchemaRun (.ok r) p).error = some (some unableParseMsg))
    ∧ ((crawlRun (.ok r)).error = none ∧ (crawlRun (.ok r)).success = r.success) := by
  refine ⟨?_, ?_, ?_, ?_, ?_⟩
  · intro he
    constructor
    · simp [generateSchemaRun, errorPresentNonEmpty, he]
    · intro hs
      simp [generateSchemaRun] at hs
  · intro he
    constructor
    · simp [crawlRun, errorPresentNonEmpty, he]
    · intro hs
      simp [crawlRun] at hs
  · intro hs hc hp
    constructor
    · simp [generateSchemaRun, errorPresentNonEmpty, hs, hc, hp]
    · intro _
      simp [generateSchemaRun, hs, hc, hp]
  · intro hs hc hp
    constructor
    · simp [generateSchemaRun, hs, hc, hp]
    · simp [generateSchemaRun, hs, hc, hp]
  · exact ⟨by simp [crawlRun], by simp [crawlRun]⟩

/-- Witness for `envelope_invariant_amended` at concrete inputs: a
non-empty exception message and a successful upstream result whose content
parses. -/
theorem envelope_invariant_amended_witness :
    resultInvariant (generateSchemaRun (.error "boom".toList) (fun _ => true))
    ∧ resultInvariant (crawlRun (.error "boom".toList))
    ∧ resultInvariant
        (generateSchemaRun (.ok ⟨true, "https://example.com".toList,
          some "[1]".toList, none⟩) (fun _ => true)) := by
  have h₁ := envelope_invariant_amended "boom".toList
    ⟨true, "https://example.com".toList, some "[1]".toList, none⟩ (fun _ => true)
    "[1]".toList
  exact ⟨h₁.1 (by decide), h₁.2.1 (by decide), h₁.2.2.1 rfl rfl rfl⟩

/-- C2 counterexample: an initialization failure is raised before the
`try` of `crawl` and therefore propagates out of the executor method — the
claim that every failure beneath an executor method is converted to an
envelope is false. -/
theorem executor_no_propagation_counterexample :
    ¬ (∀ (init : Except (List Char) Unit) (arun : Except (List Char) ArunResult),
        ∃ env, crawlMethod init arun = .ok env) := by
  intro h
  obtain ⟨env, he⟩ := h (.error "browser launch failed".toList)
    (.ok ⟨true, [], none, none⟩)
  simp [crawlMethod] at he

/-- C2 amended: once initialization has succeeded, every failure raised
inside the guarded body of an executor method is caught and converted to
the `{success: false, error: <message>}` envelope and no exception leaves
the method; an initialization failure, raised before the `try`, propagates
unchanged. -/
theorem executor_catch_inside_try (init : Except (List Char) Unit)
    (arun : Except (List Char) ArunResult) (p : List Char → Bool)
    (pageEls : Except (List Char) (List Element)) (ty : List Char)
    (attr : Option (List Char)) (e : List Char) :
    (init = .ok () →
      crawlMethod init arun = .ok (crawlRun arun)
      ∧ generateSchemaMethod init arun p = .ok (generateSchemaRun arun p)
      ∧ ∃ res, extractMethod init pageEls ty attr = .ok res)
    ∧ (arun = .error e →
        (crawlRun arun).success = false ∧ (crawlRun arun).error = some (some e))
    ∧ (pageEls = .error e →
        extractMethod (.ok ()) pageEls ty attr = .ok (.errEnvelope e))
    ∧ (init = .error e → crawlMethod init arun = .error e
        ∧ generateSchemaMethod init arun p = .error e
        ∧ extractMethod init pageEls ty attr = .error e) := by
  refine ⟨?_, ?_, ?_, ?_⟩
  · intro hinit
    subst hinit
    refine ⟨rfl, rfl, ?_⟩
    cases pageEls with
    | error eMsg => exact ⟨.errEnvelope eMsg, rfl⟩
    | ok els => exact ⟨.items (extractLoop ty attr els), rfl⟩
  · intro harun
    subst harun
    exact ⟨rfl, rfl⟩
  · intro hp
    subst hp
    rfl
  · intro hinit
    subst hinit
    exact ⟨rfl, rfl, rfl⟩

/-- Witness for `executor_catch_inside_try`: a crawl whose `arun` raises
`"navigation failed"` after successful initialization returns the error
envelope, and an initialization failure propagates. -/
theorem executor_catch_inside_try_witness :
    crawlMethod (.ok ()) (.error "navigation failed".toList)
      = .ok (crawlRun (.error "navigation failed".toList))
    ∧ (crawlRun (.error "navigation failed".toList)).success = false
    ∧ (crawlRun (.error "navigation failed".toList)).error
        = some (some "navigation failed".toList)
    ∧ crawlMethod (.error "init failed".toList) (.error "navigation failed".toList)
        = .error "init failed".toList
    ∧ extractMethod (.ok ()) (.error "navigation failed".toList) textType none
        = .ok (.errEnvelope "navigation failed".toList) := by
  have h₁ := executor_catch_inside_try (.ok ()) (.error "navigation failed".toList)
    (fun _ => true) (.error "navigation failed".toList) textType none
    "navigation failed".toList
  have h₂ := executor_catch_inside_try (.error "init failed".toList)
    (.error "navigation failed".toList) (fun _ => true)
    (.error "navigation failed".toList) textType none "init failed".toList
  exact ⟨(h₁.1 rfl).1, (h₁.2.1 rfl).1, (h₁.2.1 rfl).2, (h₂.2.2.2 rfl).1,
    h₁.2.2.1 rfl⟩

/-- The url recorded in a link's entry is that link, whatever the
outcome. -/
theorem linkEntry_url (link : List Char) (o : LinkOutcome) :
    (linkEntry link o).url = link := by
  cases o <;> rfl

/-- C5: for a non-negative `maxDepth`, the resolved link list is truncated
to its first `maxDepth` entries before any per-link crawling: the result is
the per-link loop over exactly that prefix, its entries' urls are that
prefix, and its length is `min maxDepth (number of resolved links)` —
`maxDepth` bounds the count of top-level links followed, not a recursion
depth. -/
theorem crawlLinks_depth_is_breadth (url : List Char)
    (hrefs : List (Option (List Char))) (maxDepth : Int)
    (crawlOf : List Char → LinkOutcome) (h : 0 ≤ maxDepth) :
    crawlLinksResults url hrefs maxDepth crawlOf
      = crawlLinksLoop crawlOf ((resolveLinks url hrefs).take maxDepth.toNat)
    ∧ (crawlLinksResults url hrefs maxDepth crawlOf).map (fun en => en.url)
      = (resolveLinks url hrefs).take maxDepth.toNat
    ∧ (crawlLinksResults url hrefs maxDepth crawlOf).length
      = min maxDepth.toNat (resolveLinks url hrefs).length := by
  have he : crawlLinksResults url hrefs maxDepth crawlOf
      = crawlLinksLoop crawlOf ((resolveLinks url hrefs).take maxDepth.toNat) := by
    unfold crawlLinksResults pySliceTo
    rw [if_pos h]
  refine ⟨he, ?_, ?_⟩
  · rw [he]
    unfold crawlLinksLoop
    rw [List.map_map]
    have hcomp : ((fun en => en.url) ∘ fun link => linkEntry link (crawlOf link)) = id := by
      funext link
      simp [linkEntry_url]
    rw [hcomp, List.map_id]
  · rw [he]
    unfold crawlLinksLoop
    simp [List.length_take]

/-- Witness for `crawlLinks_depth_is_breadth`: `maxDepth = 2` with five
discovered links returns results for exactly the first two resolved
links. -/
theorem crawlLinks_depth_is_breadth_witness :
    (crawlLinksResults c5StartUrl c5Hrefs 2 c5Oracle).map (fun en => en.url)
      = ["https://example.com/a".toList, "https://example.com/b".toList]
    ∧ (crawlLinksResults c5StartUrl c5Hrefs 2 c5Oracle).length = 2 := by
  have h := crawlLinks_depth_is_breadth c5StartUrl c5Hrefs 2 c5Oracle (by decide)
  refine ⟨?_, ?_⟩
  · rw [h.2.1]
    decide
  · rw [h.2.2]
    decide

/-- C10: `crawl_links` performs no validation of non-positive `max_depth`:
`max_depth = 0` yields an empty result list, and a negative `max_depth`
drops the last `|max_depth|` resolved links (Python slice semantics of
`links[:max_depth]`) and crawls all earlier ones. -/
theorem crawlLinks_nonpositive_depth (url : List Char)
    (hrefs : List (Option (List Char))) (maxDepth : Int)
    (crawlOf : List Char → LinkOutcome) :
    (maxDepth = 0 → crawlLinksResults url hrefs maxDepth crawlOf = [])
    ∧ (maxDepth < 0 →
        pySliceTo (resolveLinks url hrefs) maxDepth
          = (resolveLinks url hrefs).take
              ((resolveLinks url hrefs).length - maxDepth.natAbs)
        ∧ crawlLinksResults url hrefs maxDepth crawlOf
          = crawlLinksLoop crawlOf
              ((resolveLinks url hrefs).take
                ((resolveLinks url hrefs).length - maxDepth.natAbs))) := by
  constructor
  · intro h0
    subst h0
    unfold crawlLinksResults pySliceTo
    rw [if_pos (le_refl 0)]
    simp [crawlLinksLoop]
  · intro hneg
    have hsl : pySliceTo (resolveLinks url hrefs) maxDepth
        = (resolveLinks url hrefs).take
            ((resolveLinks url hrefs).length - maxDepth.natAbs) := by
      unfold pySliceTo
      rw [if_neg (by omega)]
      congr 1
      omega
    exact ⟨hsl, by unfold crawlLinksResults; rw [hsl]⟩

/-- Witness for `crawlLinks_nonpositive_depth`: with five resolved links,
`max_depth = 0` yields no results and `max_depth = -2` crawls exactly the
first three resolved links. -/
theorem crawlLinks_nonpositive_depth_witness :
    crawlLinksResults c5StartUrl c5Hrefs 0 c5Oracle = []
    ∧ (crawlLinksResults c5StartUrl c5Hrefs (-2) c5Oracle).map (fun en => en.url)
      = ["https://example.com/a".toList, "https://example.com/b".toList,
         "https://example.com/c".toList] := by
  have h0 := (crawlLinks_nonpositive_depth c5StartUrl c5Hrefs 0 c5Oracle).1 rfl
  have hn := (crawlLinks_nonpositive_depth c5StartUrl c5Hrefs (-2) c5Oracle).2 (by decide)
  refine ⟨h0, ?_⟩
  rw [hn.2]
  decide

/-- C6: `extract` returns exactly one entry per matched element, in
document order — the element's text for type `"text"`, its inner HTML for
`"html"`, and the named attribute's value for `"attribute"`, a missing
attribute contributing a null entry rather than being omitted; an empty
match set yields an empty list on the success path. -/
theorem extract_per_element (els : List Element) (attr : Option (List Char))
    (a ty : List Char) (pageEls : Except (List Char) (List Element)) :
    extractLoop textType attr els = els.map (fun el => el.text)
    ∧ extractLoop htmlType attr els = els.map (fun el => some el.html)
    ∧ (attr = some a → a ≠ [] →
        extractLoop attributeType attr els = els.map (fun el => getAttribute el a))
    ∧ (pageEls = .ok [] →
        extractMethod (.ok ()) pageEls ty attr = .ok (.items [])) := by
  refine ⟨?_, ?_, ?_, ?_⟩
  · induction els with
    | nil => rfl
    | cons el rest ih =>
      simp only [extractLoop, List.flatMap_cons, List.map_cons] at ih ⊢
      rw [ih]
      simp [extractOne]
  · induction els with
    | nil => rfl
    | cons el rest ih =>
      simp only [extractLoop, List.flatMap_cons, List.map_cons] at ih ⊢
      rw [ih]
      simp [extractOne, show htmlType ≠ textType by decide]
  · intro ha hne
    subst ha
    induction els with
    | nil => rfl
    | cons el rest ih =>
      simp only [extractLoop, List.flatMap_cons, List.map_cons] at ih ⊢
      rw [ih]
      simp [extractOne, hne, show attributeType ≠ textType by decide,
        show attributeType ≠ htmlType by decide]
  · intro hp
    subst hp
    rfl

/-- Witness for `extract_per_element`: two concrete elements, one carrying
an `href` attribute and one not; an attribute extraction yields the value
and a null, in order, and the empty match set yields the empty item
list. -/
theorem extract_per_element_witness :
    extractLoop attributeType (some "href".toList)
        [⟨some "A".toList, "<b>A</b>".toList, [("href".toList, "/a".toList)]⟩,
         ⟨some "B".toList, "<b>B</b>".toList, []⟩]
      = [some "/a".toList, none]
    ∧ extractMethod (.ok ()) (.ok []) textType (some "href".toList)
      = .ok (.items []) := by
  have h := extract_per_element
    [⟨some "A".toList, "<b>A</b>".toList, [("href".toList, "/a".toList)]⟩,
     ⟨some "B".toList, "<b>B</b>".toList, []⟩]
    (some "href".toList) "href".toList textType (.ok [])
  refine ⟨?_, h.2.2.2 rfl⟩
  rw [h.2.2.1 rfl (by decide)]
  decide

/-- C8 counterexample: a `crawl_links` call whose single retained link
raises after its per-link browser session opened returns with that session
still open — the claimed close-on-every-exit-path invariant fails for
`crawl_links`. -/
theorem session_cleanup_counterexample :
    crawlLinksOpenAfter (fun _ => .raisedAfterOpen "boom".toList)
        ["https://a.example/1".toList] = 1
    ∧ crawlLinksOpenAfter (fun _ => .raisedAfterOpen "boom".toList)
        ["https://a.example/1".toList] ≠ 0 := by
  exact ⟨rfl, by decide⟩

/-- C8 amended: every Playwright-scoped operation closes its page session
before returning on every exit path (success and caught error alike), and
the per-link loop of `crawl_links` leaves no session open provided no
link's crawl raises after its session opened; a link that does raise after
opening leaves its session unclosed. -/
theorem session_cleanup_amended {α : Type} (work : Except (List Char) α)
    (crawlOf : List Char → LinkOutcome) (links : List (List Char)) :
    (scopedRun work).2 = 0
    ∧ (scopedRun work).1 = work
    ∧ ((∀ l ∈ links, ∀ m, crawlOf l ≠ .raisedAfterOpen m) →
        crawlLinksOpenAfter crawlOf links = 0) := by
  refine ⟨?_, ?_, ?_⟩
  · cases work <;> rfl
  · cases work <;> rfl
  · intro hno
    induction links with
    | nil => rfl
    | cons l rest ih =>
      have hl : linkOpenAfter (crawlOf l) = 0 := by
        cases hcl : crawlOf l with
        | completed s d em => rfl
        | raisedAfterOpen m => exact absurd hcl (hno l (by simp) m)
        | raisedBeforeOpen m => rfl
      have hrest := ih (fun l' hl' m => hno l' (by simp [hl']) m)
      simp only [crawlLinksOpenAfter, List.map_cons, List.sum_cons] at hrest ⊢
      rw [hl, hrest]

/-- Witness for `session_cleanup_amended`: a successful scoped body and a
two-link crawl whose links all complete leave zero sessions open. -/
theorem session_cleanup_amended_witness :
    (scopedRun (Except.ok 0 : Except (List Char) Nat)).2 = 0
    ∧ crawlLinksOpenAfter (fun _ => LinkOutcome.completed true none none)
        ["https://a.example/1".toList, "https://a.example/2".toList] = 0 := by
  have h := session_cleanup_amended (Except.ok 0 : Except (List Char) Nat)
    (fun _ => LinkOutcome.completed true none none)
    ["https://a.example/1".toList, "https://a.example/2".toList]
  exact ⟨h.1, h.2.2 (fun l _ m h => LinkOutcome.noConfusion h)⟩

/-- C9 counterexample: a job whose action type is the empty string (a
falsy, unknown action type) takes the early return before the `try`, so
the worker returns without invoking the session manager's shutdown and the
browser state stays initialized. -/
theorem worker_shutdown_counterexample :
    ((processJob (some [])
        (fun _ st => (Except.ok ({ success := true } : Envelope), st))
        { crawler := true }).2).crawler = true
    ∧ (processJob (some [])
        (fun _ st => (Except.ok ({ success := true } : Envelope), st))
        { crawler := true }).1
      = .errorDict "No action type specified".toList := by
  exact ⟨rfl, rfl⟩

/-- C9 amended: for every job whose action type is a non-empty string —
known or unknown, handler returning or raising — the worker's `finally`
invokes `close()` after the job, leaving the shared browser resource
uninitialized before the result is returned; a job with a missing or empty
action type returns the no-action-type error dictionary without invoking
shutdown, its state unchanged. -/
theorem worker_shutdown_amended (t : List Char)
    (handler : List Char → ServiceState → Except (List Char) Envelope × ServiceState)
    (st : ServiceState) (jobType : Option (List Char)) :
    (t ≠ [] → ((processJob (some t) handler st).2).crawler = false)
    ∧ (jobType = none ∨ jobType = some [] →
        (processJob jobType handler st).1
          = .errorDict "No action type specified".toList
        ∧ (processJob jobType handler st).2 = st) := by
  constructor
  · intro ht
    simp only [processJob, if_neg ht]
    rfl
  · rintro (h | h) <;> subst h <;> exact ⟨rfl, rfl⟩

/-- Witness for `worker_shutdown_amended`: a known action with a returning
handler, an unknown action, and a known action whose handler raises all
leave the browser state uninitialized; a missing action type leaves it
initialized. -/
theorem worker_shutdown_amended_witness :
    ((processJob (some "crawl".toList)
        (fun _ st => (Except.ok ({ success := true } : Envelope), st))
        { crawler := true }).2).crawler = false
    ∧ ((processJob (some "nonsense".toList)
        (fun _ st => (Except.ok ({ success := true } : Envelope), st))
        { crawler := true }).2).crawler = false
    ∧ ((processJob (some "crawl".toList)
        (fun _ _ => (Except.error "boom".toList, { crawler := true }))
        { crawler := true }).2).crawler = false
    ∧ (processJob none
        (fun _ st => (Except.ok ({ success := true } : Envelope), st))
        { crawler := true }).2 = { crawler := true } := by
  refine ⟨?_, ?_, ?_, ?_⟩
  · exact (worker_shutdown_amended "crawl".toList
      (fun _ st => (Except.ok ({ success := true } : Envelope), st))
      { crawler := true } none).1 (by decide)
  · exact (worker_shutdown_amended "nonsense".toList
      (fun _ st => (Except.ok ({ success := true } : Envelope), st))
      { crawler := true } none).1 (by decide)
  · exact (worker_shutdown_amended "crawl".toList
      (fun _ _ => (Except.error "boom".toList, { crawler := true }))
      { crawler := true } none).1 (by decide)
  · exact ((worker_shutdown_amended [] (fun _ st =>
      (Except.ok ({ success := true } : Envelope), st))
      { crawler := true } none).2 (Or.inl rfl)).2

/-- C3 counterexample: in crawler.py 593-609 `results.append(...)` runs
before `await crawler.close()` inside the same `try`, so a link whose
close() raises contributes a completed entry and then an error entry —
two retained links yield three entries, refuting "exactly one entry per
retained link". -/
theorem crawlLinks_one_entry_counterexample :
    (crawlLinksLoopFull closeFailOracle
        ["https://a.example/1".toList, "https://a.example/2".toList]).length = 3
    ∧ ["https://a.example/1".toList, "https://a.example/2".toList].length = 2
    ∧ crawlLinksLoopFull closeFailOracle
        ["https://a.example/1".toList, "https://a.example/2".toList]
      = [{ url := "https://a.example/1".toList, success := true,
           data := some (some "data1".toList), error := some none },
         { url := "https://a.example/1".toList, success := false,
           data := none, error := some (some "close failed".toList) },
         { url := "https://a.example/2".toList, success := true,
           data := some (some "data2".toList), error := some none }] := by
  refine ⟨by decide, by decide, by decide⟩

/-- C3 amended: each retained link is crawled independently and in the
resolved order — the result list is the per-link concatenation of that
link's entries, so one link's failure never drops or blocks the others;
a crawl that raises before its result is appended is caught and recorded
as a single `{url, success: false, error}` entry; a link whose
`crawler.close()` raises after the append contributes the completed entry
followed by such an error entry (two entries for that link); every other
link contributes exactly one entry, and when no close() raises the list
has exactly one entry per retained link. -/
theorem crawlLinks_isolation_amended (crawlOf : List Char → LinkCrawl)
    (links : List (List Char)) (link msg : List Char) (s : Bool)
    (d em : Option (List Char)) :
    (∀ l rest, crawlLinksLoopFull crawlOf (l :: rest)
        = linkEntriesOf l (crawlOf l) ++ crawlLinksLoopFull crawlOf rest)
    ∧ (∀ en ∈ linkEntriesOf link (crawlOf link), en.url = link)
    ∧ (crawlOf link = .arunRaised msg →
        linkEntriesOf link (crawlOf link)
          = [{ url := link, success := false, data := none,
               error := some (some msg) }])
    ∧ (crawlOf link = .returned s d em none →
        linkEntriesOf link (crawlOf link)
          = [{ url := link, success := s, data := some d, error := some em }])
    ∧ (crawlOf link = .returned s d em (some msg) →
        linkEntriesOf link (crawlOf link)
          = [{ url := link, success := s, data := some d, error := some em },
             { url := link, success := false, data := none,
               error := some (some msg) }])
    ∧ ((∀ l ∈ links, ∀ s' d' em' m', crawlOf l ≠ .returned s' d' em' (some m')) →
        (crawlLinksLoopFull crawlOf links).length = links.length) := by
  refine ⟨?_, ?_, ?_, ?_, ?_, ?_⟩
  · intro l rest
    simp [crawlLinksLoopFull]
  · intro en hen
    cases hc : crawlOf link with
    | returned s' d' em' closeErr =>
      cases closeErr with
      | none =>
        rw [hc] at hen
        simp only [linkEntriesOf, List.mem_singleton] at hen
        rw [hen]
      | some m' =>
        rw [hc] at hen
        simp only [linkEntriesOf, List.mem_cons, List.mem_singleton,
          List.not_mem_nil, or_false] at hen
        rcases hen with hen | hen <;> rw [hen]
    | arunRaised m' =>
      rw [hc] at hen
      simp only [linkEntriesOf, List.mem_singleton] at hen
      rw [hen]
  · intro hc
    rw [hc]
    rfl
  · intro hc
    rw [hc]
    rfl
  · intro hc
    rw [hc]
    rfl
  · intro hno
    induction links with
    | nil => rfl
    | cons l rest ih =>
      have hl : (linkEntriesOf l (crawlOf l)).length = 1 := by
        cases hc : crawlOf l with
        | returned s' d' em' closeErr =>
          cases closeErr with
          | none => rfl
          | some m' => exact absurd hc (hno l (by simp) s' d' em' m')
        | arunRaised m' => rfl
      have hrest := ih (fun l' hl' s' d' em' m' => hno l' (by simp [hl']) s' d' em' m')
      simp only [crawlLinksLoopFull, List.flatMap_cons, List.length_append,
        List.length_cons] at hrest ⊢
      rw [hl, hrest]
      omega

/-- Witness for `crawlLinks_isolation_amended`: the first link raises
before its append and yields a single error entry, the second completes
and closes normally; the list has one entry per link and remains the
concatenation of the per-link entries. -/
theorem crawlLinks_isolation_amended_witness :
    (crawlLinksLoopFull isoOracle [isoLink1, isoLink2]).length = 2
    ∧ linkEntriesOf isoLink1 (isoOracle isoLink1)
        = [{ url := isoLink1, success := false, data := none,
             error := some (some "boom".toList) }]
    ∧ linkEntriesOf isoLink2 (isoOracle isoLink2)
        = [{ url := isoLink2, success := true,
             data := some (some "data".toList), error := some none }]
    ∧ crawlLinksLoopFull isoOracle [isoLink1, isoLink2]
        = linkEntriesOf isoLink1 (isoOracle isoLink1)
            ++ crawlLinksLoopFull isoOracle [isoLink2] := by
  have h := crawlLinks_isolation_amended isoOracle [isoLink1, isoLink2]
    isoLink1 "boom".toList true (some "data".toList) none
  have h2 := crawlLinks_isolation_amended isoOracle [isoLink1, isoLink2]
    isoLink2 "boom".toList true (some "data".toList) none
  have hno : ∀ l ∈ [isoLink1, isoLink2],
      ∀ s' d' em' m', isoOracle l ≠ .returned s' d' em' (some m') := by
    intro l _ s' d' em' m' hc
    unfold isoOracle at hc
    by_cases hl : l = isoLink1
    · rw [if_pos hl] at hc
      exact LinkCrawl.noConfusion hc
    · rw [if_neg hl] at hc
      injection hc with h1 h2 h3 h4
      exact Option.noConfusion h4
  refine ⟨?_, h.2.2.1 (by decide), ?_, h.1 isoLink1 [isoLink2]⟩
  · rw [h.2.2.2.2.2 hno]
    rfl
  · exact h2.2.2.2.1 (by decide)
